import Mathlib

/-
Verification of the Lux bytecode compiler and virtual machine.

This file shallowly embeds the parts of the Lux sources (compiler.c and
vm.c) that the verified properties are about:

  * the value model and the semantics of the OP_ADD and OP_NOT
    instruction arms of the interpreter loop (vm.c, run());
  * the open-upvalue list operations captureUpvalue / closeUpvalues;
  * a small-step virtual machine covering the opcodes exercised by the
    properties (constants, stack manipulation, comparison, jumps, ADD,
    DUMP, RETURN);
  * the single-pass Pratt compiler, restricted to the token subset the
    properties exercise (numbers, strings, identifiers, the arithmetic
    and assignment operators, dump / while / break / continue / switch
    statements and blocks);
  * initCompiler, which opens a nested function compiler.

Machine doubles are modelled as Int: none of the verified properties
depends on IEEE-754-specific behaviour (no rounding, no NaN, no -0.0 is
ever involved; number arithmetic only occurs on small integers).
Heap identity of tables and arrays is modelled by indices into an
explicit heap; instance identity by an explicit id.
-/

namespace Lux

/-! ## Opcodes

chunk.h is not part of the provided sources; the numeric values of the
opcode bytes are irrelevant to every property (only distinctness
matters), so they are enumerated here in declaration order. -/

def OP_CONSTANT : Nat := 0
def OP_NIL : Nat := 1
def OP_TRUE : Nat := 2
def OP_FALSE : Nat := 3
def OP_POP : Nat := 4
def OP_DUP : Nat := 5
def OP_GET_LOCAL : Nat := 6
def OP_SET_LOCAL : Nat := 7
def OP_GET_GLOBAL : Nat := 8
def OP_DEFINE_GLOBAL : Nat := 9
def OP_SET_GLOBAL : Nat := 10
def OP_GET_UPVALUE : Nat := 11
def OP_SET_UPVALUE : Nat := 12
def OP_EQUAL : Nat := 13
def OP_GREATER : Nat := 14
def OP_LESS : Nat := 15
def OP_ADD : Nat := 16
def OP_SUBTRACT : Nat := 17
def OP_MULTIPLY : Nat := 18
def OP_DIVIDE : Nat := 19
def OP_MODULO : Nat := 20
def OP_NOT : Nat := 21
def OP_NEGATE : Nat := 22
def OP_JUMP : Nat := 23
def OP_JUMP_IF_FALSE : Nat := 24
def OP_LOOP : Nat := 25
def OP_CALL : Nat := 26
def OP_CLOSURE : Nat := 27
def OP_CLOSE_UPVALUE : Nat := 28
def OP_RETURN : Nat := 29
def OP_DUMP : Nat := 30
def OP_INDEX : Nat := 31
def OP_SET_INDEX : Nat := 32

/-! ## Values

value.h/object.h are not part of the provided sources. Modelled from the
spec: a Value is one of Nil, Bool, Number, or a heap object handle; heap
object types relevant to the properties are string (interned, so content
equality is identity), table, array, instance and closure. Tables and
arrays are mutable, so a value holds only a handle (an index into the
heap below); an instance additionally carries its (immutable) class
handle. -/

inductive Value where
  | nil : Value
  | bool (b : Bool) : Value
  | num (n : Int) : Value
  | str (s : String) : Value
  | tableRef (id : Nat) : Value
  | arrayRef (id : Nat) : Value
  | inst (klass : Nat) (id : Nat) : Value
  | closureRef (fn : Nat) : Value
deriving DecidableEq, Repr

/-- Modelled from the spec (value.c is not in src/): equality on numbers
is numeric, on heap objects it is identity, except strings, which are
interned and hence identity-equal iff content-equal. -/
def valuesEqual : Value → Value → Bool
  | Value.nil, Value.nil => true
  | Value.bool a, Value.bool b => a == b
  | Value.num a, Value.num b => a == b
  | Value.str a, Value.str b => a == b
  | Value.tableRef a, Value.tableRef b => a == b
  | Value.arrayRef a, Value.arrayRef b => a == b
  | Value.inst _ a, Value.inst _ b => a == b
  | Value.closureRef a, Value.closureRef b => a == b
  | _, _ => false

/-- isFalsey (vm.c): nil and false are falsy, everything else truthy. -/
def isFalsey : Value → Bool
  | Value.nil => true
  | Value.bool b => !b
  | _ => false

/-! ## Tables

table.c is not in src/. Modelled from the spec: a table is a mapping
from Value keys to Values; `tableSet` binds a key (overwriting an
existing binding), `tableGet` looks a key up, and `tableAddAll from to`
copies every entry of `from` into `to` via `tableSet`. The mapping is
represented as an association list whose keys are pairwise distinct. -/

def alistGet (l : List (Value × Value)) (k : Value) : Option Value :=
  match l with
  | [] => none
  | e :: rest => if valuesEqual e.1 k then some e.2 else alistGet rest k

def listTableSet (l : List (Value × Value)) (k v : Value) : List (Value × Value) :=
  match l with
  | [] => [(k, v)]
  | e :: rest => if valuesEqual e.1 k then (e.1, v) :: rest else e :: listTableSet rest k v

def listAddAll (src dst : List (Value × Value)) : List (Value × Value) :=
  match src with
  | [] => dst
  | e :: rest => listAddAll rest (listTableSet dst e.1 e.2)

/-- The mutable heap: tables and arrays are identified by their index. -/
structure Heap where
  tables : List (List (Value × Value))
  arrays : List (List Value)
deriving DecidableEq, Repr

def emptyHeap : Heap := ⟨[], []⟩

def tableGetH (h : Heap) (id : Nat) (k : Value) : Option Value :=
  match h.tables.get? id with
  | some l => alistGet l k
  | none => none

/-! ## The OP_ADD instruction arm (vm.c, run(), case OP_ADD)

`a` is the value one below the stack top (peek(1), the left operand),
`b` the stack top (peek(0), the right operand). The instance⊕instance
branch dispatches to the `__add` dunder through invoke(); the dispatch
itself (a method call) is represented by the `dunder` outcome carrying
the receiver and argument, mirroring INVOKE_DUNDER. -/

structure DunderCall where
  method : String
  receiver : Value
  arg : Value
deriving DecidableEq, Repr

inductive AddOutcome where
  | ok (v : Value) (h : Heap) : AddOutcome
  | dunder (c : DunderCall) : AddOutcome
  | err (msg : String) : AddOutcome
deriving DecidableEq, Repr

def opAdd (h : Heap) (a b : Value) : AddOutcome :=
  match a, b with
  | Value.str sa, Value.str sb =>
      -- concatenate(): a's characters first, then b's; result interned
      AddOutcome.ok (Value.str (sa ++ sb)) h
  | Value.num na, Value.num nb =>
      AddOutcome.ok (Value.num (na + nb)) h
  | Value.tableRef ia, Value.tableRef ib =>
      -- tableAddAll(&b->table, &new->table); tableAddAll(&a->table, &new->table)
      let ea := (h.tables.get? ia).getD []
      let eb := (h.tables.get? ib).getD []
      let merged := listAddAll ea (listAddAll eb [])
      AddOutcome.ok (Value.tableRef h.tables.length)
        { h with tables := h.tables ++ [merged] }
  | Value.arrayRef ia, Value.arrayRef ib =>
      -- joinValueArray(&new->array, &a->array); joinValueArray(&new->array, &b->array)
      let va := (h.arrays.get? ia).getD []
      let vb := (h.arrays.get? ib).getD []
      AddOutcome.ok (Value.arrayRef h.arrays.length)
        { h with arrays := h.arrays ++ [va ++ vb] }
  | Value.inst ka _, Value.inst kb _ =>
      if ka != kb then
        AddOutcome.err "Operands must be two instances of the same class."
      else
        AddOutcome.dunder ⟨"__add", a, b⟩
  | _, _ => AddOutcome.err "Operands must be two joinable types."

/-- The supported operand combinations of OP_ADD, as the specification
lists them. -/
def joinable : Value → Value → Bool
  | Value.str _, Value.str _ => true
  | Value.num _, Value.num _ => true
  | Value.tableRef _, Value.tableRef _ => true
  | Value.arrayRef _, Value.arrayRef _ => true
  | Value.inst _ _, Value.inst _ _ => true
  | _, _ => false

/-! ## The OP_NOT instruction arm (vm.c, run(), case OP_NOT)

The stack is represented top-at-head. When the two topmost values are
both instances, the arm expands INVOKE_DUNDER(vm.notString): a runtime
error if the classes differ, otherwise an invoke of `__not` with
argCount 1, whose receiver is peek(1) — the value *beneath* the operand.
Otherwise one value is popped and the negation of its truthiness is
pushed. (A stack with fewer than two values never executes OP_NOT in a
real run: slot 0 of the active frame always holds a closure or
receiver.) -/

inductive NotOutcome where
  | plain (stack : List Value) : NotOutcome
  | dunder (c : DunderCall) : NotOutcome
  | err (msg : String) : NotOutcome
deriving DecidableEq, Repr

def opNot (stack : List Value) : NotOutcome :=
  match stack with
  | v0 :: v1 :: rest =>
      match v0, v1 with
      | Value.inst k0 i0, Value.inst k1 i1 =>
          if k1 != k0 then
            NotOutcome.err "Operands must be two instances of the same class."
          else
            NotOutcome.dunder ⟨"__not", Value.inst k1 i1, Value.inst k0 i0⟩
      | _, _ => NotOutcome.plain (Value.bool (isFalsey v0) :: v1 :: rest)
  | [v0] => NotOutcome.plain [Value.bool (isFalsey v0)]
  | [] => NotOutcome.err "stack underflow"

/-! ## Open upvalues (vm.c, captureUpvalue / closeUpvalues)

An open upvalue is represented as a pair (id, location): `id` stands for
the object's identity (newUpvalue allocations receive increasing fresh
ids), `location` is the stack slot the upvalue points into, counted from
the stack base (the source compares raw `Value*` pointers; higher slot =
larger pointer). The VM's open list has its head at the highest
location, as in the source. -/

/-- captureUpvalue(localSlot): walk the open list past all upvalues whose
location is above `local`; reuse an exact match, otherwise splice in a
fresh upvalue. Returns (the upvalue that was produced or reused, the new
open list, the next fresh id). -/
def captureUpvalue (nextId : Nat) (l : List (Nat × Nat)) (localSlot : Nat) :
    Nat × List (Nat × Nat) × Nat :=
  match l with
  | [] => (nextId, [(nextId, localSlot)], nextId + 1)
  | (id, loc) :: rest =>
      if loc > localSlot then
        let (r, rest', n') := captureUpvalue nextId rest localSlot
        (r, (id, loc) :: rest', n')
      else if loc == localSlot then
        (id, (id, loc) :: rest, nextId)
      else
        (nextId, (nextId, localSlot) :: (id, loc) :: rest, nextId + 1)

/-- closeUpvalues(last): pop and close every open upvalue whose location
is at or above `last` (executed by OP_RETURN with the frame's slot base
and by OP_CLOSE_UPVALUE with stackTop-1). -/
def closeUpvalues (l : List (Nat × Nat)) (last : Nat) : List (Nat × Nat) :=
  l.dropWhile (fun e => last ≤ e.2)

/-- The open-upvalue lists (together with the fresh-id supply) that the
three operations touching the list can produce, starting from the empty
list the VM is initialised with. -/
inductive ReachableUV : List (Nat × Nat) → Nat → Prop where
  | init : ReachableUV [] 0
  | capture (l : List (Nat × Nat)) (n localSlot : Nat) :
      ReachableUV l n →
      ReachableUV (captureUpvalue n l localSlot).2.1 (captureUpvalue n l localSlot).2.2
  | close (l : List (Nat × Nat)) (n last : Nat) :
      ReachableUV l n →
      ReachableUV (closeUpvalues l last) n

/-- The open-list ordering invariant: strictly descending stack-slot
locations (which entails at most one open upvalue per slot). -/
def UVOrdered (l : List (Nat × Nat)) : Prop :=
  List.Pairwise (fun a b : Nat × Nat => b.2 < a.2) l

/-! ## The virtual machine (vm.c, run())

A Chunk is a function's code and constant pool. The value stack is
represented top-at-head; a frame's `slots` is the bottom-based index of
its slot 0, so "truncate the stack to frame->slots" keeps the bottom
`slots` values. The step function covers the opcodes that the verified
programs execute; opcodes outside this subset (and dunder-method
dispatch, which re-enters the call machinery) yield the `stuck` outcome,
which is distinct from every outcome a property asserts. A stack
underflow is undefined behaviour in the source and also maps to
`stuck`. -/

structure Chunk where
  code : List Nat
  constants : List Value
deriving DecidableEq, Repr

structure Frame where
  fn : Nat
  ip : Nat
  slots : Nat
deriving DecidableEq, Repr

structure VMSt where
  chunks : List Chunk
  stack : List Value
  frames : List Frame
  openUpvalues : List (Nat × Nat)
  nextUV : Nat
  heap : Heap
  output : List Value
deriving DecidableEq, Repr

inductive StepOut where
  | ok (st : VMSt) : StepOut
  | done (st : VMSt) : StepOut
  | rtErr (msg : String) : StepOut
  | stuck : StepOut
deriving DecidableEq, Repr

/-- One dispatch iteration of run(). -/
def step (st : VMSt) : StepOut :=
  match st.frames with
  | [] => StepOut.stuck
  | f :: fs =>
    match st.chunks.get? f.fn with
    | none => StepOut.stuck
    | some ch =>
      match ch.code.get? f.ip with
      | none => StepOut.stuck
      | some op =>
        if op = OP_CONSTANT then
          match ch.code.get? (f.ip + 1) with
          | none => StepOut.stuck
          | some idx =>
            match ch.constants.get? idx with
            | none => StepOut.stuck
            | some v =>
              StepOut.ok { st with stack := v :: st.stack,
                                   frames := { f with ip := f.ip + 2 } :: fs }
        else if op = OP_NIL then
          StepOut.ok { st with stack := Value.nil :: st.stack,
                               frames := { f with ip := f.ip + 1 } :: fs }
        else if op = OP_TRUE then
          StepOut.ok { st with stack := Value.bool true :: st.stack,
                               frames := { f with ip := f.ip + 1 } :: fs }
        else if op = OP_FALSE then
          StepOut.ok { st with stack := Value.bool false :: st.stack,
                               frames := { f with ip := f.ip + 1 } :: fs }
        else if op = OP_POP then
          match st.stack with
          | [] => StepOut.stuck
          | _ :: rest =>
            StepOut.ok { st with stack := rest,
                                 frames := { f with ip := f.ip + 1 } :: fs }
        else if op = OP_DUP then
          match st.stack with
          | [] => StepOut.stuck
          | v :: rest =>
            StepOut.ok { st with stack := v :: v :: rest,
                                 frames := { f with ip := f.ip + 1 } :: fs }
        else if op = OP_EQUAL then
          match st.stack with
          | Value.inst _ _ :: Value.inst _ _ :: _ => StepOut.stuck -- __eq dunder dispatch
          | b :: a :: rest =>
            StepOut.ok { st with stack := Value.bool (valuesEqual a b) :: rest,
                                 frames := { f with ip := f.ip + 1 } :: fs }
          | _ => StepOut.stuck
        else if op = OP_ADD then
          match st.stack with
          | b :: a :: rest =>
            match opAdd st.heap a b with
            | AddOutcome.ok v h' =>
              StepOut.ok { st with stack := v :: rest, heap := h',
                                   frames := { f with ip := f.ip + 1 } :: fs }
            | AddOutcome.dunder _ => StepOut.stuck -- __add dunder dispatch
            | AddOutcome.err msg => StepOut.rtErr msg
          | _ => StepOut.stuck
        else if op = OP_NOT then
          match opNot st.stack with
          | NotOutcome.plain stack' =>
            StepOut.ok { st with stack := stack',
                                 frames := { f with ip := f.ip + 1 } :: fs }
          | NotOutcome.dunder _ => StepOut.stuck -- __not dunder dispatch
          | NotOutcome.err msg => StepOut.rtErr msg
        else if op = OP_JUMP then
          match ch.code.get? (f.ip + 1), ch.code.get? (f.ip + 2) with
          | some hi, some lo =>
            StepOut.ok { st with frames := { f with ip := f.ip + 3 + (hi * 256 + lo) } :: fs }
          | _, _ => StepOut.stuck
        else if op = OP_JUMP_IF_FALSE then
          match ch.code.get? (f.ip + 1), ch.code.get? (f.ip + 2) with
          | some hi, some lo =>
            match st.stack with
            | [] => StepOut.stuck
            | v :: _ =>
              if isFalsey v then
                StepOut.ok { st with frames := { f with ip := f.ip + 3 + (hi * 256 + lo) } :: fs }
              else
                StepOut.ok { st with frames := { f with ip := f.ip + 3 } :: fs }
          | _, _ => StepOut.stuck
        else if op = OP_LOOP then
          match ch.code.get? (f.ip + 1), ch.code.get? (f.ip + 2) with
          | some hi, some lo =>
            StepOut.ok { st with frames := { f with ip := f.ip + 3 - (hi * 256 + lo) } :: fs }
          | _, _ => StepOut.stuck
        else if op = OP_DUMP then
          match st.stack with
          | [] => StepOut.stuck
          | v :: rest =>
            StepOut.ok { st with stack := rest, output := st.output ++ [v],
                                 frames := { f with ip := f.ip + 1 } :: fs }
        else if op = OP_RETURN then
          match st.stack with
          | [] => StepOut.stuck
          | result :: rest =>
            let uv' := closeUpvalues st.openUpvalues f.slots
            if fs.isEmpty then
              match rest with
              | [] => StepOut.stuck
              | _ :: rest' =>
                StepOut.done { st with stack := rest', frames := [],
                                       openUpvalues := uv' }
            else
              StepOut.ok { st with stack := result :: rest.drop (rest.length - f.slots),
                                   frames := fs, openUpvalues := uv' }
        else
          StepOut.stuck

inductive RunOut where
  | finished (st : VMSt) : RunOut
  | runtimeError (msg : String) : RunOut
  | stuckOut : RunOut
  | noFuel (st : VMSt) : RunOut
deriving DecidableEq, Repr

def runVM : Nat → VMSt → RunOut
  | 0, st => RunOut.noFuel st
  | fuel + 1, st =>
    match step st with
    | StepOut.ok st' => runVM fuel st'
    | StepOut.done st' => RunOut.finished st'
    | StepOut.rtErr msg => RunOut.runtimeError msg
    | StepOut.stuck => RunOut.stuckOut

/-- interpret(): the compiled script function becomes closure 0, is
pushed, and is called with 0 arguments (frame 0, ip 0, slot base 0). -/
def initState (c : Chunk) : VMSt :=
  { chunks := [c], stack := [Value.closureRef 0], frames := [⟨0, 0, 0⟩],
    openUpvalues := [], nextUV := 0, heap := emptyHeap, output := [] }

def stackOf : RunOut → Option (List Value)
  | RunOut.finished st => some st.stack
  | RunOut.noFuel st => some st.stack
  | _ => none

/-! ## The compiler (compiler.c)

The embedding covers the token subset that the verified properties
exercise: numbers, strings, identifiers, `( ) { } , ; :`, the operators
`+ - * / = += -= *= /=`, the keywords `dump while break continue switch
case default true false nil`, and EOF. Declaration keywords (class,
fun, let) and the statements if/for/return lie outside this subset, so
declaration() reduces to statement() followed by synchronization. The
scanner is out of scope ("yields tokens; not further specified"), so
compilation starts from a token list, number tokens carry their numeric
value, string tokens their contents, and TOKEN_ERROR never occurs.
Error messages that no property mentions are abbreviated (the source
quotes the offending punctuation; the quoting is immaterial). The
parser's line counter is not modelled. The embedded compiler context is
the top-level script context, whose `enclosing` is NULL, so
resolveUpvalue misses immediately; the nested initCompiler path is
embedded separately below. Parsing recursion is bounded by explicit
fuel; running out of fuel poisons the state with hadError, and every
property either supplies sufficient fuel or holds for all fuels. -/

inductive TokType where
  | numberTok | stringTok | identTok
  | plus | minus | star | slash
  | eq | plusEq | minusEq | starEq | slashEq
  | semicolon | colon | comma | lparen | rparen | lbrace | rbrace
  | dumpT | switchT | caseT | defaultT | whileT | breakT | continueT
  | falseT | trueT | nilT
  | eofT
deriving DecidableEq, Repr

inductive Token where
  | number (v : Int)
  | stringLit (s : String)
  | ident (name : String)
  | plus | minus | star | slash
  | eq | plusEq | minusEq | starEq | slashEq
  | semicolon | colon | comma | lparen | rparen | lbrace | rbrace
  | dumpT | switchT | caseT | defaultT | whileT | breakT | continueT
  | falseT | trueT | nilT
  | eofT
deriving DecidableEq, Repr

def tokType : Token → TokType
  | Token.number _ => TokType.numberTok
  | Token.stringLit _ => TokType.stringTok
  | Token.ident _ => TokType.identTok
  | Token.plus => TokType.plus
  | Token.minus => TokType.minus
  | Token.star => TokType.star
  | Token.slash => TokType.slash
  | Token.eq => TokType.eq
  | Token.plusEq => TokType.plusEq
  | Token.minusEq => TokType.minusEq
  | Token.starEq => TokType.starEq
  | Token.slashEq => TokType.slashEq
  | Token.semicolon => TokType.semicolon
  | Token.colon => TokType.colon
  | Token.comma => TokType.comma
  | Token.lparen => TokType.lparen
  | Token.rparen => TokType.rparen
  | Token.lbrace => TokType.lbrace
  | Token.rbrace => TokType.rbrace
  | Token.dumpT => TokType.dumpT
  | Token.switchT => TokType.switchT
  | Token.caseT => TokType.caseT
  | Token.defaultT => TokType.defaultT
  | Token.whileT => TokType.whileT
  | Token.breakT => TokType.breakT
  | Token.continueT => TokType.continueT
  | Token.falseT => TokType.falseT
  | Token.trueT => TokType.trueT
  | Token.nilT => TokType.nilT
  | Token.eofT => TokType.eofT

/-- The precedence ladder. -/
def PREC_NONE : Nat := 0
def PREC_ASSIGNMENT : Nat := 1
def PREC_OR : Nat := 2
def PREC_AND : Nat := 3
def PREC_EQUALITY : Nat := 4
def PREC_COMPARISON : Nat := 5
def PREC_TERM : Nat := 6
def PREC_FACTOR : Nat := 7
def PREC_UNARY : Nat := 8
def PREC_CALL : Nat := 9
def PREC_PRIMARY : Nat := 10

structure LocalRec where
  name : String
  depth : Int
  isCaptured : Bool
deriving DecidableEq, Repr

inductive FunctionType where
  | typeFunction | typeInitializer | typeMethod | typeScript
deriving DecidableEq, Repr

/-- Parser + current (script) compiler context. `toks` holds the
upcoming tokens with parser.current at its head; `locals` is kept most
recent first (the source always walks it back-to-front). -/
structure CState where
  toks : List Token
  prev : Token
  hadError : Bool
  panicMode : Bool
  errors : List String
  code : List Nat
  constants : List Value
  locals : List LocalRec
  scopeDepth : Nat
  ftype : FunctionType
  isInLoop : Bool
  breakNodes : List Nat
  loopStart : Nat
deriving DecidableEq, Repr

def curTok (st : CState) : Token := st.toks.headD Token.eofT

def checkTok (st : CState) (t : TokType) : Bool := tokType (curTok st) == t

def advance (st : CState) : CState :=
  { st with prev := curTok st, toks := st.toks.tail }

def matchTok (st : CState) (t : TokType) : Bool × CState :=
  if checkTok st t then (true, advance st) else (false, st)

/-- errorAt / error / errorAtCurrent: in panic mode the report is
suppressed (and hadError left as is); otherwise panic is entered, the
message recorded, and hadError set. -/
def errorAt (st : CState) (msg : String) : CState :=
  if st.panicMode then st
  else { st with panicMode := true, hadError := true, errors := st.errors ++ [msg] }

def consume (st : CState) (t : TokType) (msg : String) : CState :=
  if checkTok st t then advance st else errorAt st msg

def emitByte (st : CState) (b : Nat) : CState :=
  { st with code := st.code ++ [b] }

def emitBytes (st : CState) (b1 b2 : Nat) : CState :=
  emitByte (emitByte st b1) b2

/-- emitJump: opcode plus two 0xff placeholder bytes; returns the offset
of the placeholder. -/
def emitJump (st : CState) (instr : Nat) : CState × Nat :=
  let st' := emitByte (emitByte (emitByte st instr) 255) 255
  (st', st'.code.length - 2)

/-- patchJump: write the (big-endian) distance from the instruction
after the operand to the current end of code. The source reports "Too
much code to jump over." above 16 bits but stores the truncated bytes
regardless. -/
def patchJump (st : CState) (offset : Nat) : CState :=
  let jump := st.code.length - offset - 2
  let st1 := if jump > 65535 then errorAt st "Too much code to jump over." else st
  { st1 with code := (st1.code.set offset (jump / 256 % 256)).set (offset + 1) (jump % 256) }

def patchJumpList (st : CState) (l : List Nat) : CState :=
  l.foldl patchJump st

def emitLoop (st : CState) (loopStart : Nat) : CState :=
  let st1 := emitByte st OP_LOOP
  let offset := st1.code.length - loopStart + 2
  let st2 := if offset > 65535 then errorAt st1 "Loop body too large." else st1
  emitByte (emitByte st2 (offset / 256 % 256)) (offset % 256)

def emitReturn (st : CState) : CState :=
  let st1 := if st.ftype == FunctionType.typeInitializer
             then emitBytes st OP_GET_LOCAL 0
             else emitByte st OP_NIL
  emitByte st1 OP_RETURN

/-- addConstant + makeConstant: append to the pool; index above 255 is a
compile error (and yields index 0). -/
def makeConstant (st : CState) (v : Value) : CState × Nat :=
  let idx := st.constants.length
  let st' := { st with constants := st.constants ++ [v] }
  if idx > 255 then (errorAt st' "Too many constants in one chunk.", 0)
  else (st', idx)

def emitConstant (st : CState) (v : Value) : CState :=
  let (st', idx) := makeConstant st v
  emitBytes st' OP_CONSTANT idx

def beginScope (st : CState) : CState :=
  { st with scopeDepth := st.scopeDepth + 1 }

/-- The local-popping loop of endScope. -/
def popLocalsAux (scopeDepth : Nat) : List LocalRec → CState → CState
  | [], st => st
  | l :: rest, st =>
      if l.depth > (scopeDepth : Int) then
        popLocalsAux scopeDepth rest
          { emitByte st (if l.isCaptured then OP_CLOSE_UPVALUE else OP_POP) with locals := rest }
      else st

def endScope (st : CState) : CState :=
  let st1 := { st with scopeDepth := st.scopeDepth - 1 }
  popLocalsAux st1.scopeDepth st1.locals st1

/-- resolveLocal's back-to-front walk: returns the matching slot index
and whether the local is still in its own initializer (depth == -1). -/
def findLocal : List LocalRec → String → Option (Nat × Bool)
  | [], _ => none
  | l :: rest, name =>
      if l.name == name then some (rest.length, l.depth == -1)
      else findLocal rest name

def resolveLocal (st : CState) (name : String) : CState × Option Nat :=
  match findLocal st.locals name with
  | none => (st, none)
  | some (slot, ownInit) =>
      (if ownInit then errorAt st "Cannot read local variable in its own initializer." else st,
       some slot)

/-- The get/set opcode and operand resolution at the head of
namedVariable. resolveUpvalue always misses here: the embedded context
is the script compiler, whose enclosing is NULL. -/
structure VarOps where
  getOp : Nat
  setOp : Nat
  arg : Nat
  st : CState

def resolveVarOps (st : CState) (name : String) : VarOps :=
  match resolveLocal st name with
  | (st', some slot) => ⟨OP_GET_LOCAL, OP_SET_LOCAL, slot, st'⟩
  | (st', none) =>
      let (st'', idx) := makeConstant st' (Value.str name)
      ⟨OP_GET_GLOBAL, OP_SET_GLOBAL, idx, st''⟩

/-! Pratt rule table (the subset of rules[] for the embedded tokens;
function pointers are represented by tags). -/

inductive PreFn where
  | groupingF | unaryF | variableF | numberF | stringF | literalF
deriving DecidableEq, Repr

inductive InFn where
  | binaryF | callF
deriving DecidableEq, Repr

def getRulePre : TokType → Option PreFn
  | TokType.lparen => some PreFn.groupingF
  | TokType.minus => some PreFn.unaryF
  | TokType.identTok => some PreFn.variableF
  | TokType.numberTok => some PreFn.numberF
  | TokType.stringTok => some PreFn.stringF
  | TokType.falseT => some PreFn.literalF
  | TokType.trueT => some PreFn.literalF
  | TokType.nilT => some PreFn.literalF
  | _ => none

def getRuleIn : TokType → Option InFn
  | TokType.lparen => some InFn.callF
  | TokType.minus => some InFn.binaryF
  | TokType.plus => some InFn.binaryF
  | TokType.star => some InFn.binaryF
  | TokType.slash => some InFn.binaryF
  | TokType.caseT => some InFn.binaryF
  | _ => none

def getRulePrec : TokType → Nat
  | TokType.lparen => PREC_CALL
  | TokType.minus => PREC_TERM
  | TokType.plus => PREC_TERM
  | TokType.star => PREC_FACTOR
  | TokType.slash => PREC_FACTOR
  | TokType.caseT => PREC_EQUALITY
  | _ => PREC_NONE

/-- number(): the scanner-side lexeme-to-value conversion (strtod and
the 0x/0b/0o prefixes) happens before our token list, which carries the
numeric value. -/
def numberRule (st : CState) : CState :=
  match st.prev with
  | Token.number v => emitConstant st (Value.num v)
  | _ => st

def stringRule (st : CState) : CState :=
  match st.prev with
  | Token.stringLit s => emitConstant st (Value.str s)
  | _ => st

def literalRule (st : CState) : CState :=
  match tokType st.prev with
  | TokType.falseT => emitByte st OP_FALSE
  | TokType.nilT => emitByte st OP_NIL
  | TokType.trueT => emitByte st OP_TRUE
  | _ => st

def breakStatement (st : CState) : CState :=
  let st1 := if !st.isInLoop then errorAt st "Break must in a loop." else st
  let (st2, patch) := emitJump st1 OP_JUMP
  let st3 := { st2 with breakNodes := patch :: st2.breakNodes }
  consume st3 TokType.semicolon "Expect semicolon after break"

def continueStatement (st : CState) : CState :=
  let st1 := if !st.isInLoop then errorAt st "Continue must in a loop." else st
  let st2 := emitLoop st1 st1.loopStart
  consume st2 TokType.semicolon "Expect semicolon after continue"

def patchBreakAux : List Nat → CState → CState
  | [], st => st
  | p :: rest, st => patchBreakAux rest (patchJump st p)

def patchBreak (st : CState) : CState :=
  patchBreakAux st.breakNodes { st with breakNodes := [] }

/-- The scanning loop of synchronize(); of the source's stop set only
while and dump fall inside the embedded token subset (switch is not in
the source's stop set). -/
def syncLoop : Nat → CState → CState
  | 0, st => { st with hadError := true }
  | fuel + 1, st =>
      if !(checkTok st TokType.eofT) then
        if tokType st.prev == TokType.semicolon then st
        else
          match tokType (curTok st) with
          | TokType.whileT => st
          | TokType.dumpT => st
          | _ => syncLoop fuel (advance st)
      else st

def synchronize (st : CState) : CState :=
  syncLoop (st.toks.length + 1) { st with panicMode := false }

/-- Fuel exhaustion marker. -/
def poison (st : CState) : CState := { st with hadError := true }

mutual

def parsePrecedence : Nat → Nat → CState → CState
  | 0, _, st => poison st
  | fuel + 1, prec, st =>
      let st1 := advance st
      match getRulePre (tokType st1.prev) with
      | none => errorAt st1 "Expect expression."
      | some pf =>
          let canArg := decide (prec ≤ PREC_ASSIGNMENT)
          let st2 := runPre fuel pf canArg st1
          let st3 := infixLoop fuel prec canArg st2
          if canArg then
            if checkTok st3 TokType.eq then
              errorAt (advance st3) "Invalid assignment target."
            else st3
          else st3

def infixLoop : Nat → Nat → Bool → CState → CState
  | 0, _, _, st => poison st
  | fuel + 1, prec, canArg, st =>
      if prec ≤ getRulePrec (tokType (curTok st)) then
        let st1 := advance st
        match getRuleIn (tokType st1.prev) with
        | some inf => infixLoop fuel prec canArg (runIn fuel inf canArg st1)
        | none => st1
      else st

def runPre : Nat → PreFn → Bool → CState → CState
  | 0, _, _, st => poison st
  | fuel + 1, pf, canArg, st =>
      match pf with
      | PreFn.groupingF => grouping fuel canArg st
      | PreFn.unaryF => unary fuel canArg st
      | PreFn.variableF => variableRule fuel canArg st
      | PreFn.numberF => numberRule st
      | PreFn.stringF => stringRule st
      | PreFn.literalF => literalRule st

def runIn : Nat → InFn → Bool → CState → CState
  | 0, _, _, st => poison st
  | fuel + 1, inf, canArg, st =>
      match inf with
      | InFn.binaryF => binary fuel canArg st
      | InFn.callF => call fuel canArg st

def expression : Nat → CState → CState
  | 0, st => poison st
  | fuel + 1, st => parsePrecedence fuel PREC_ASSIGNMENT st

def grouping : Nat → Bool → CState → CState
  | 0, _, st => poison st
  | fuel + 1, _, st =>
      consume (expression fuel st) TokType.rparen "Expect rparen after expression."

def unary : Nat → Bool → CState → CState
  | 0, _, st => poison st
  | fuel + 1, _, st =>
      let opType := tokType st.prev
      let st1 := parsePrecedence fuel PREC_UNARY st
      match opType with
      | TokType.minus => emitByte st1 OP_NEGATE
      | _ => st1

def binary : Nat → Bool → CState → CState
  | 0, _, st => poison st
  | fuel + 1, _, st =>
      let opType := tokType st.prev
      let st1 := parsePrecedence fuel (getRulePrec opType + 1) st
      match opType with
      | TokType.plus => emitByte st1 OP_ADD
      | TokType.minus => emitByte st1 OP_SUBTRACT
      | TokType.star => emitByte st1 OP_MULTIPLY
      | TokType.slash => emitByte st1 OP_DIVIDE
      | _ => st1

def call : Nat → Bool → CState → CState
  | 0, _, st => poison st
  | fuel + 1, _, st =>
      let (argCount, st1) := argumentList fuel st
      emitBytes st1 OP_CALL argCount

def argumentList : Nat → CState → Nat × CState
  | 0, st => (0, poison st)
  | fuel + 1, st =>
      if !(checkTok st TokType.rparen) then
        let (n, st1) := argLoop fuel 0 st
        (n, consume st1 TokType.rparen "Expect rparen after arguments.")
      else (0, consume st TokType.rparen "Expect rparen after arguments.")

def argLoop : Nat → Nat → CState → Nat × CState
  | 0, n, st => (n, poison st)
  | fuel + 1, n, st =>
      let st1 := expression fuel st
      let st2 := if n == 255 then errorAt st1 "Cannot have more than 255 arguments." else st1
      if checkTok st2 TokType.comma then argLoop fuel (n + 1) (advance st2)
      else (n + 1, st2)

def variableRule : Nat → Bool → CState → CState
  | 0, _, st => poison st
  | fuel + 1, canArg, st =>
      match st.prev with
      | Token.ident name => namedVariable fuel name canArg st
      | _ => st

def namedVariable : Nat → String → Bool → CState → CState
  | 0, _, _, st => poison st
  | fuel + 1, name, canArg, st =>
      -- each failed match() leaves the parser untouched, so the source's
      -- cascade of match() calls is an if-chain of check + advance here
      let vo := resolveVarOps st name
      if canArg && checkTok vo.st TokType.eq then
        emitBytes (expression fuel (advance vo.st)) vo.setOp vo.arg
      else if checkTok vo.st TokType.plusEq then
        emitBytes (emitByte (emitBytes (expression fuel (advance vo.st)) vo.getOp vo.arg) OP_ADD) vo.setOp vo.arg
      else if checkTok vo.st TokType.minusEq then
        emitBytes (emitByte (expression fuel (emitBytes (advance vo.st) vo.getOp vo.arg)) OP_SUBTRACT) vo.setOp vo.arg
      else if checkTok vo.st TokType.starEq then
        emitBytes (emitByte (emitBytes (expression fuel (advance vo.st)) vo.getOp vo.arg) OP_MULTIPLY) vo.setOp vo.arg
      else if checkTok vo.st TokType.slashEq then
        emitBytes (emitByte (emitBytes (expression fuel (advance vo.st)) vo.getOp vo.arg) OP_DIVIDE) vo.setOp vo.arg
      else
        emitBytes vo.st vo.getOp vo.arg

def declaration : Nat → CState → CState
  | 0, st => poison st
  | fuel + 1, st =>
      let st1 := statement fuel st
      if st1.panicMode then synchronize st1 else st1

def statement : Nat → CState → CState
  | 0, st => poison st
  | fuel + 1, st =>
      if checkTok st TokType.dumpT then printStatement fuel (advance st)
      else if checkTok st TokType.whileT then whileStatement fuel (advance st)
      else if checkTok st TokType.continueT then continueStatement (advance st)
      else if checkTok st TokType.breakT then breakStatement (advance st)
      else if checkTok st TokType.switchT then switchStatement fuel (advance st)
      else if checkTok st TokType.lbrace then endScope (block fuel (beginScope (advance st)))
      else expressionStatement fuel st

def block : Nat → CState → CState
  | 0, st => poison st
  | fuel + 1, st =>
      if !(checkTok st TokType.rbrace) && !(checkTok st TokType.eofT) then
        block fuel (declaration fuel st)
      else
        consume st TokType.rbrace "Expect rbrace after block."

def expressionStatement : Nat → CState → CState
  | 0, st => poison st
  | fuel + 1, st =>
      emitByte (consume (expression fuel st) TokType.semicolon "Expect semicolon after expression.") OP_POP

def printStatement : Nat → CState → CState
  | 0, st => poison st
  | fuel + 1, st =>
      emitByte (consume (expression fuel st) TokType.semicolon "Expect semicolon after value.") OP_DUMP

def whileStatement : Nat → CState → CState
  | 0, st => poison st
  | fuel + 1, st =>
      let loopStart := st.code.length
      let st1 := { st with loopStart := loopStart }
      let st2 := consume st1 TokType.lparen "Expect lparen after while."
      let st3 := expression fuel st2
      let st4 := consume st3 TokType.rparen "Expect rparen after condition."
      let (st5, exitJump) := emitJump st4 OP_JUMP_IF_FALSE
      let st6 := emitByte st5 OP_POP
      let st7 := { st6 with isInLoop := true }
      let st8 := statement fuel st7
      let st9 := emitLoop st8 loopStart
      let st10 := patchJump st9 exitJump
      let st11 := emitByte st10 OP_POP
      patchBreak st11

def switchStatement : Nat → CState → CState
  | 0, st => poison st
  | fuel + 1, st =>
      let st1 := consume st TokType.lparen "Expect lparen after switch."
      let st2 := expression fuel st1
      let st3 := consume st2 TokType.rparen "Expect rparen after switch condition."
      let st4 := consume st3 TokType.lbrace "Expect lbrace after switch condition."
      let (exitJumps, st5) := switchCases fuel [] st4
      let (mDef, st6) := matchTok st5 TokType.defaultT
      let (poppedFinal, st8) :=
        if mDef then
          let st7 := statement fuel (consume st6 TokType.colon "Expect colon after default.")
          if exitJumps.length == 0 then (true, emitByte st7 OP_POP)
          else (false, st7)
        else (false, st6)
      let st9 := consume st8 TokType.rbrace "Expect rbrace after switch cases."
      let st10 := patchJumpList st9 exitJumps
      if exitJumps.length == 0 && !poppedFinal then emitByte st10 OP_POP else st10

def switchCases : Nat → List Nat → CState → List Nat × CState
  | 0, acc, st => (acc, poison st)
  | fuel + 1, acc, st =>
      let (mCase, st1) := matchTok st TokType.caseT
      if mCase then
        let st2 := emitByte st1 OP_DUP
        let st3 := expression fuel st2
        let st4 := consume st3 TokType.colon "Expect colon after case expression."
        let st5 := emitByte st4 OP_EQUAL
        let (st6, skipCase) := emitJump st5 OP_JUMP_IF_FALSE
        let st7 := emitByte (emitByte st6 OP_POP) OP_POP
        let st8 := caseStmts fuel st7
        let (st9, exitJ) := emitJump st8 OP_JUMP
        let st10 := emitByte st9 OP_POP
        let st11 := patchJump st10 skipCase
        let st12 := emitByte st11 OP_POP
        switchCases fuel (acc ++ [exitJ]) st12
      else (acc, st)

def caseStmts : Nat → CState → CState
  | 0, st => poison st
  | fuel + 1, st =>
      if !(checkTok st TokType.rbrace) && !(checkTok st TokType.caseT)
          && !(checkTok st TokType.defaultT) then
        caseStmts fuel (statement fuel st)
      else st

def compileLoop : Nat → CState → CState
  | 0, st => poison st
  | fuel + 1, st =>
      if checkTok st TokType.eofT then advance st
      else compileLoop fuel (declaration fuel st)

end

/-- The initial script compiler context: initCompiler(TYPE_SCRIPT)
claims local slot 0 with an empty name at depth 0. -/
def initialCState (toks : List Token) : CState :=
  { toks := toks, prev := Token.eofT, hadError := false, panicMode := false,
    errors := [], code := [], constants := [],
    locals := [⟨"", 0, false⟩], scopeDepth := 0, ftype := FunctionType.typeScript,
    isInLoop := false, breakNodes := [], loopStart := 0 }

/-- compile(): run declarations to EOF and append the implicit return
(endCompiler). The final CState (including diagnostics) is kept. The
source's priming advance() loads the first token into parser.current;
here the head of `toks` already is parser.current. -/
def compileSt (fuel : Nat) (toks : List Token) : CState :=
  emitReturn (compileLoop fuel (initialCState toks))

/-- compile() result: the script function's chunk, or none if any error
was reported. -/
def compileFn (fuel : Nat) (toks : List Token) : Option Chunk :=
  let st := compileSt fuel toks
  if st.hadError then none else some ⟨st.code, st.constants⟩

/-! ## initCompiler (compiler.c, lines 377-405)

The nested-compiler path. A compiler context owns a function object;
the chain of contexts (innermost `current` first) is explicit here. -/

/-- The function-object fields initCompiler touches. -/
structure ObjFunctionM where
  name : Option String
  arity : Nat
  upvalueCount : Nat
deriving DecidableEq, Repr

/-- Modelled from the spec: newFunction (object.c is not in src/)
allocates a function object with "an arity, an upvalue count, an
optional name"; a fresh one has no name, arity 0 and no upvalues — the
compiler fills these in afterwards (the name only ever by
initCompiler). -/
def newFunction : ObjFunctionM := ⟨none, 0, 0⟩

structure CompilerRec where
  function : ObjFunctionM
  ftype : FunctionType
  locals : List LocalRec
  scopeDepth : Nat
  isInLoop : Bool
  breakNodes : List Nat
  loopStart : Nat
deriving DecidableEq, Repr

/-- initCompiler(compiler, type): `chain` is the compiler chain with
`current` at its head (empty iff current == NULL); `prevName` is
parser.previous's lexeme, the just-consumed name of the declaration
being compiled. For a non-script kind the source stores that name into
current->function->name — i.e. into the *enclosing* context's function —
before allocating the new context's own function; `none` is returned
when that dereferences a NULL current. Slot 0 of the new context is
reserved, named "this" except for plain functions. -/
def initCompilerM (chain : List CompilerRec) (ftype : FunctionType) (prevName : String) :
    Option (List CompilerRec) :=
  let slot0 : LocalRec :=
    if ftype != FunctionType.typeFunction
    then ⟨"this", 0, false⟩ else ⟨"", 0, false⟩
  let fresh : CompilerRec :=
    { function := newFunction, ftype := ftype, locals := [slot0],
      scopeDepth := 0, isInLoop := false, breakNodes := [], loopStart := 0 }
  if ftype != FunctionType.typeScript then
    match chain with
    | [] => none
    | encl :: rest =>
        some (fresh :: { encl with function := { encl.function with name := some prevName } } :: rest)
  else
    some (fresh :: chain)

/-! # Definitions supporting the verified properties -/

/-- First-of-two-options, used to phrase "the left operand's binding
wins over the right operand's". -/
def firstSome (a b : Option Value) : Option Value :=
  match a with
  | some v => some v
  | none => b

/-- A well-formed table binds each key at most once. -/
@[reducible] def TableWF (l : List (Value × Value)) : Prop :=
  l.Pairwise (fun a b => valuesEqual a.1 b.1 = false)

/-- "The emitted code of st' extends that of st": st' only appended. -/
def CodeExt (st st' : CState) : Prop := ∃ t, st'.code = st.code ++ t

/-- IS_INSTANCE. -/
def isInstanceV : Value → Bool
  | Value.inst _ _ => true
  | _ => false

/-- Whether the first character list begins the second. -/
def leadsWith : List Char → List Char → Bool
  | [], _ => true
  | _ :: _, [] => false
  | a :: as, b :: bs => a == b && leadsWith as bs

/-- Whether the second character list occurs contiguously inside the
first ("the message contains ..."). -/
def containsChars : List Char → List Char → Bool
  | [], needle => needle.isEmpty
  | c :: rest, needle => leadsWith needle (c :: rest) || containsChars rest needle

/-- A heap holding the two tables of the table-merge counterexample:
table 0, the left operand, binds "k" to 1; table 1, the right operand,
binds "k" to 2. -/
def mergeHeap : Heap :=
  ⟨[[(Value.str "k", Value.num 1)], [(Value.str "k", Value.num 2)]], []⟩

open Token in
/-- Tokens of `x /= 2;` (x is a global). -/
def slashEqToks : List Token :=
  [ident "x", slashEq, number 2, semicolon, eofT]

open Token in
/-- Tokens of `1 + x = 2;`. -/
def plainAssignToks : List Token :=
  [number 1, plus, ident "x", eq, number 2, semicolon, eofT]

open Token in
/-- Tokens of `1 + x += 2;`. -/
def sugarAssignToks : List Token :=
  [number 1, plus, ident "x", plusEq, number 2, semicolon, eofT]

open Token in
/-- Tokens of `while (false) {} break;`. -/
def breakAfterLoopToks : List Token :=
  [whileT, lparen, falseT, rparen, lbrace, rbrace, breakT, semicolon, eofT]

open Token in
/-- Tokens of `switch (1) { case 2: dump 1; }`. -/
def switchMissToks : List Token :=
  [switchT, lparen, number 1, rparen, lbrace,
   caseT, number 2, colon, dumpT, number 1, semicolon, rbrace, eofT]

/-- The chunk the compiler emits for switchMissToks. -/
def switchMissChunk : Chunk :=
  ⟨[OP_CONSTANT, 0, OP_DUP, OP_CONSTANT, 1, OP_EQUAL, OP_JUMP_IF_FALSE, 0, 9,
    OP_POP, OP_POP, OP_CONSTANT, 2, OP_DUMP, OP_JUMP, 0, 2, OP_POP, OP_POP,
    OP_NIL, OP_RETURN],
   [Value.num 1, Value.num 2, Value.num 1]⟩

open Token in
/-- Tokens of `dump "x" + 1;`. -/
def dumpAddToks : List Token :=
  [dumpT, stringLit "x", plus, number 1, semicolon, eofT]

/-- The chunk the compiler emits for dumpAddToks. -/
def dumpAddChunk : Chunk :=
  ⟨[OP_CONSTANT, 0, OP_CONSTANT, 1, OP_ADD, OP_DUMP, OP_NIL, OP_RETURN],
   [Value.str "x", Value.num 1]⟩

/-- A VM state whose script frame is about to execute the final RETURN
of `NIL; RETURN` with a balanced stack. -/
def termSt : VMSt :=
  { chunks := [⟨[OP_NIL, OP_RETURN], []⟩], stack := [Value.closureRef 0],
    frames := [⟨0, 0, 0⟩], openUpvalues := [], nextUV := 0,
    heap := emptyHeap, output := [] }

/-- A VM state with two frames whose inner frame (slot base 1) is about
to execute RETURN with result 7 on top. -/
def twoFrameSt : VMSt :=
  { chunks := [⟨[OP_RETURN], []⟩, ⟨[OP_RETURN], []⟩],
    stack := [Value.num 7, Value.closureRef 1, Value.closureRef 0],
    frames := [⟨1, 0, 1⟩, ⟨0, 0, 0⟩],
    openUpvalues := [(0, 2), (1, 0)], nextUV := 2,
    heap := emptyHeap, output := [] }

/-! # Auxiliary lemmas -/

/-! ## valuesEqual is an equivalence -/

theorem veq_refl (a : Value) : valuesEqual a a = true := by
  cases a <;> simp [valuesEqual]

theorem veq_symm {a b : Value} (h : valuesEqual a b = true) : valuesEqual b a = true := by
  cases a <;> cases b <;> simp_all [valuesEqual]

theorem veq_trans {a b c : Value} (h1 : valuesEqual a b = true)
    (h2 : valuesEqual b c = true) : valuesEqual a c = true := by
  cases a <;> cases b <;> cases c <;> simp_all [valuesEqual]

/-! ## Association-list (table) lemmas -/

theorem alistGet_eq_none {l : List (Value × Value)} {k : Value}
    (h : ∀ e ∈ l, valuesEqual e.1 k = false) : alistGet l k = none := by
  induction l with
  | nil => rfl
  | cons e rest ih =>
      simp only [alistGet, h e (by simp)]
      exact ih (fun e' he' => h e' (by simp [he']))

theorem alistGet_listTableSet (l : List (Value × Value)) (k' v k : Value) :
    alistGet (listTableSet l k' v) k =
      if valuesEqual k' k then some v else alistGet l k := by
  induction l with
  | nil => simp [listTableSet, alistGet]
  | cons e rest ih =>
      by_cases hv : valuesEqual e.1 k' = true
      · simp only [listTableSet, hv, if_pos, alistGet]
        by_cases hk : valuesEqual k' k = true
        · simp [veq_trans hv hk, hk]
        · have he : valuesEqual e.1 k = false := by
            by_contra hc
            exact hk (veq_trans (veq_symm hv) (by simpa using hc))
          simp [he, hk, alistGet]
      · simp only [listTableSet, hv]
        simp only [Bool.false_eq_true, if_neg, alistGet]
        by_cases hek : valuesEqual e.1 k = true
        · have hkk : valuesEqual k' k = false := by
            by_contra hc
            exact hv (veq_trans hek (veq_symm (by simpa using hc)))
          simp [hek, hkk]
        · simp [hek, ih]

theorem alistGet_listAddAll (src : List (Value × Value)) (k : Value)
    (hw : TableWF src) :
    ∀ dst, alistGet (listAddAll src dst) k =
      firstSome (alistGet src k) (alistGet dst k) := by
  induction src with
  | nil => intro dst; simp [listAddAll, alistGet, firstSome]
  | cons e rest ih =>
      intro dst
      have hpair : ∀ b ∈ rest, valuesEqual e.1 b.1 = false :=
        (List.pairwise_cons.mp hw).1
      have hw' : TableWF rest := (List.pairwise_cons.mp hw).2
      simp only [listAddAll]
      rw [ih hw']
      by_cases h1 : valuesEqual e.1 k = true
      · have hnone : alistGet rest k = none := by
          apply alistGet_eq_none
          intro e' he'
          by_contra hc
          have : valuesEqual e.1 e'.1 = true :=
            veq_trans h1 (veq_symm (by simpa using hc))
          simp [hpair e' he'] at this
        simp [alistGet, h1, hnone, firstSome, alistGet_listTableSet]
      · simp [alistGet, h1, firstSome, alistGet_listTableSet]

/-! ## Open-upvalue list lemmas -/

theorem capture_locs {n x : Nat} {l : List (Nat × Nat)} :
    ∀ p ∈ (captureUpvalue n l x).2.1, p ∈ l ∨ p.2 = x := by
  induction l with
  | nil =>
      intro p hp
      simp only [captureUpvalue] at hp
      simp_all
  | cons e rest ih =>
      obtain ⟨i0, loc0⟩ := e
      intro p hp
      by_cases hgt : loc0 > x
      · rcases hcc : captureUpvalue n rest x with ⟨r, rest', n'⟩
        simp only [captureUpvalue, hgt, if_pos, hcc] at hp
        rcases List.mem_cons.mp hp with h | h
        · exact Or.inl (by simp [h])
        · rcases ih p (by rw [hcc]; exact h) with h' | h'
          · exact Or.inl (List.mem_cons_of_mem _ h')
          · exact Or.inr h'
      · by_cases heq : (loc0 == x) = true
        · simp only [captureUpvalue, hgt, heq, if_neg, if_pos] at hp
          simp_all
        · simp only [captureUpvalue, hgt, heq, if_neg] at hp
          rcases List.mem_cons.mp hp with h | h
          · exact Or.inr (by simp [h])
          · exact Or.inl h

theorem capture_ordered {l : List (Nat × Nat)} (n x : Nat) (h : UVOrdered l) :
    UVOrdered (captureUpvalue n l x).2.1 := by
  induction l with
  | nil => simp [captureUpvalue, UVOrdered]
  | cons e rest ih =>
      obtain ⟨i0, loc0⟩ := e
      have hhead : ∀ p ∈ rest, p.2 < loc0 := (List.pairwise_cons.mp h).1
      have htail : UVOrdered rest := (List.pairwise_cons.mp h).2
      by_cases hgt : loc0 > x
      · rcases hcc : captureUpvalue n rest x with ⟨r, rest', n'⟩
        simp only [captureUpvalue, hgt, if_pos, hcc]
        have hord' : UVOrdered rest' := by
          have := ih htail
          rwa [hcc] at this
        refine List.pairwise_cons.mpr ⟨?_, hord'⟩
        intro p hp
        rcases capture_locs p (by rw [hcc]; exact hp) with h' | h'
        · exact hhead p h'
        · simpa [h'] using hgt
      · by_cases heq : (loc0 == x) = true
        · simp only [captureUpvalue, hgt, heq, if_neg, if_pos]
          exact h
        · simp only [captureUpvalue, hgt, heq, if_neg]
          have hlt : loc0 < x := by
            have h1 : ¬ loc0 > x := hgt
            have h2 : loc0 ≠ x := by simpa using heq
            omega
          refine List.pairwise_cons.mpr ⟨?_, h⟩
          intro p hp
          rcases List.mem_cons.mp hp with h' | h'
          · simp [h', hlt]
          · exact Nat.lt_trans (hhead p h') hlt

theorem capture_mem {l : List (Nat × Nat)} (n : Nat) {id x : Nat}
    (h : UVOrdered l) (hm : (id, x) ∈ l) :
    captureUpvalue n l x = (id, l, n) := by
  induction l with
  | nil => simp at hm
  | cons e rest ih =>
      obtain ⟨i0, loc0⟩ := e
      rcases List.mem_cons.mp hm with heq | hmem
      · have h1 : id = i0 := congrArg Prod.fst heq
        have h2 : x = loc0 := congrArg Prod.snd heq
        subst h1; subst h2
        simp [captureUpvalue]
      · have hlt : x < loc0 := by
          have := (List.pairwise_cons.mp h).1 _ hmem
          simpa using this
        have htail := (List.pairwise_cons.mp h).2
        rcases hcc : captureUpvalue n rest x with ⟨r, rest', n'⟩
        have hrec : captureUpvalue n rest x = (id, rest, n) := ih htail hmem
        simp only [captureUpvalue, hlt, if_pos, hrec]

theorem close_ordered {l : List (Nat × Nat)} (last : Nat) (h : UVOrdered l) :
    UVOrdered (closeUpvalues l last) :=
  h.sublist (List.dropWhile_sublist _)

/-! ## Compiler state bookkeeping lemmas

The functions reachable from expression() only ever append to the
emitted code (none of them patches a jump), which is what lets the
relative order of the emitted fragments be stated. -/

@[simp] theorem code_advance (st : CState) : (advance st).code = st.code := rfl

@[simp] theorem code_errorAt (st : CState) (m : String) : (errorAt st m).code = st.code := by
  unfold errorAt; split <;> rfl

@[simp] theorem code_consume (st : CState) (t : TokType) (m : String) :
    (consume st t m).code = st.code := by
  unfold consume; split <;> simp

@[simp] theorem code_emitByte (st : CState) (b : Nat) :
    (emitByte st b).code = st.code ++ [b] := rfl

@[simp] theorem code_emitBytes (st : CState) (b1 b2 : Nat) :
    (emitBytes st b1 b2).code = st.code ++ [b1, b2] := by
  simp [emitBytes]

@[simp] theorem code_makeConstant (st : CState) (v : Value) :
    ((makeConstant st v).1).code = st.code := by
  simp only [makeConstant]
  split <;> simp

theorem code_emitConstant (st : CState) (v : Value) :
    (emitConstant st v).code = st.code ++ [OP_CONSTANT, (makeConstant st v).2] := by
  unfold emitConstant
  rcases h : makeConstant st v with ⟨st', idx⟩
  have : st'.code = st.code := by
    have := code_makeConstant st v
    rw [h] at this; exact this
  simp [this, h]

@[simp] theorem code_resolveLocal (st : CState) (name : String) :
    ((resolveLocal st name).1).code = st.code := by
  unfold resolveLocal
  split
  · rfl
  · split <;> simp

@[simp] theorem code_resolveVarOps (st : CState) (name : String) :
    ((resolveVarOps st name).st).code = st.code := by
  unfold resolveVarOps
  rcases h : resolveLocal st name with ⟨st', o⟩
  have hc : st'.code = st.code := by
    have := code_resolveLocal st name
    rw [h] at this; exact this
  rcases o with _ | slot
  · rcases hm : makeConstant st' (Value.str name) with ⟨st'', idx⟩
    have : st''.code = st'.code := by
      have := code_makeConstant st' (Value.str name)
      rw [hm] at this; exact this
    simp [hm, this, hc]
  · simp [hc]

@[simp] theorem toks_errorAt (st : CState) (m : String) : (errorAt st m).toks = st.toks := by
  unfold errorAt; split <;> rfl

@[simp] theorem toks_emitByte (st : CState) (b : Nat) : (emitByte st b).toks = st.toks := rfl

@[simp] theorem toks_emitBytes (st : CState) (b1 b2 : Nat) :
    (emitBytes st b1 b2).toks = st.toks := rfl

@[simp] theorem toks_makeConstant (st : CState) (v : Value) :
    ((makeConstant st v).1).toks = st.toks := by
  simp only [makeConstant]
  split <;> simp

@[simp] theorem toks_resolveLocal (st : CState) (name : String) :
    ((resolveLocal st name).1).toks = st.toks := by
  unfold resolveLocal
  split
  · rfl
  · split <;> simp

@[simp] theorem toks_resolveVarOps (st : CState) (name : String) :
    ((resolveVarOps st name).st).toks = st.toks := by
  unfold resolveVarOps
  rcases h : resolveLocal st name with ⟨st', o⟩
  have hc : st'.toks = st.toks := by
    have := toks_resolveLocal st name
    rw [h] at this; exact this
  rcases o with _ | slot
  · rcases hm : makeConstant st' (Value.str name) with ⟨st'', idx⟩
    have : st''.toks = st'.toks := by
      have := toks_makeConstant st' (Value.str name)
      rw [hm] at this; exact this
    simp [hm, this, hc]
  · simp [hc]

@[simp] theorem checkTok_resolveVarOps (st : CState) (name : String) (t : TokType) :
    checkTok ((resolveVarOps st name).st) t = checkTok st t := by
  simp [checkTok, curTok]

theorem codeExt_of_eq {st st' : CState} (h : st'.code = st.code) : CodeExt st st' :=
  ⟨[], by simp [h]⟩

theorem codeExt_rfl (st : CState) : CodeExt st st := ⟨[], by simp⟩

theorem codeExt_trans {a b c : CState} (h1 : CodeExt a b) (h2 : CodeExt b c) : CodeExt a c := by
  obtain ⟨t1, e1⟩ := h1
  obtain ⟨t2, e2⟩ := h2
  exact ⟨t1 ++ t2, by simp [e2, e1]⟩

theorem codeExt_emitByte {a b : CState} (h : CodeExt a b) (x : Nat) :
    CodeExt a (emitByte b x) := by
  obtain ⟨t, e⟩ := h
  exact ⟨t ++ [x], by simp [e]⟩

theorem codeExt_emitBytes {a b : CState} (h : CodeExt a b) (x y : Nat) :
    CodeExt a (emitBytes b x y) := by
  obtain ⟨t, e⟩ := h
  exact ⟨t ++ [x, y], by simp [e]⟩

theorem codeExt_emitConstant {a b : CState} (h : CodeExt a b) (v : Value) :
    CodeExt a (emitConstant b v) := by
  obtain ⟨t, e⟩ := h
  exact ⟨t ++ [OP_CONSTANT, (makeConstant b v).2], by simp [code_emitConstant, e]⟩

theorem codeExt_consume {a b : CState} (h : CodeExt a b) (t : TokType) (m : String) :
    CodeExt a (consume b t m) :=
  codeExt_trans h (codeExt_of_eq (by simp))

theorem codeExt_numberRule (st : CState) : CodeExt st (numberRule st) := by
  unfold numberRule
  split
  · exact codeExt_emitConstant (codeExt_rfl st) _
  · exact codeExt_rfl st

theorem codeExt_stringRule (st : CState) : CodeExt st (stringRule st) := by
  unfold stringRule
  split
  · exact codeExt_emitConstant (codeExt_rfl st) _
  · exact codeExt_rfl st

theorem codeExt_literalRule (st : CState) : CodeExt st (literalRule st) := by
  unfold literalRule
  split <;>
    first
      | exact codeExt_emitByte (codeExt_rfl st) _
      | exact codeExt_rfl st

/-- Every parse function reachable from expression() extends the code by
appending: the expression grammar contains no jump patching. -/
theorem codeExt_family : ∀ fuel : Nat,
    (∀ prec st, CodeExt st (parsePrecedence fuel prec st)) ∧
    (∀ prec ca st, CodeExt st (infixLoop fuel prec ca st)) ∧
    (∀ pf ca st, CodeExt st (runPre fuel pf ca st)) ∧
    (∀ inf ca st, CodeExt st (runIn fuel inf ca st)) ∧
    (∀ st, CodeExt st (expression fuel st)) ∧
    (∀ ca st, CodeExt st (grouping fuel ca st)) ∧
    (∀ ca st, CodeExt st (unary fuel ca st)) ∧
    (∀ ca st, CodeExt st (binary fuel ca st)) ∧
    (∀ ca st, CodeExt st (call fuel ca st)) ∧
    (∀ st, CodeExt st (argumentList fuel st).2) ∧
    (∀ n st, CodeExt st (argLoop fuel n st).2) ∧
    (∀ ca st, CodeExt st (variableRule fuel ca st)) ∧
    (∀ name ca st, CodeExt st (namedVariable fuel name ca st)) := by
  intro fuel
  induction fuel with
  | zero =>
      refine ⟨?_, ?_, ?_, ?_, ?_, ?_, ?_, ?_, ?_, ?_, ?_, ?_, ?_⟩ <;>
        intros <;> exact codeExt_of_eq rfl
  | succ f ih =>
      obtain ⟨ihPP, ihIL, ihPre, ihIn, ihExpr, ihGr, ihUn, ihBin, ihCall,
        ihArgs, ihArgLoop, ihVar, ihNV⟩ := ih
      refine ⟨?_, ?_, ?_, ?_, ?_, ?_, ?_, ?_, ?_, ?_, ?_, ?_, ?_⟩
      -- parsePrecedence
      · intro prec st
        simp only [parsePrecedence]
        split
        · exact codeExt_of_eq (by simp)
        · rename_i pf _
          have h123 : CodeExt st (infixLoop f prec (decide (prec ≤ PREC_ASSIGNMENT))
              (runPre f pf (decide (prec ≤ PREC_ASSIGNMENT)) (advance st))) :=
            codeExt_trans (codeExt_of_eq rfl)
              (codeExt_trans (ihPre pf _ (advance st)) (ihIL prec _ _))
          split
          · split
            · exact codeExt_trans h123 (codeExt_of_eq (by simp))
            · exact h123
          · exact h123
      -- infixLoop
      · intro prec ca st
        simp only [infixLoop]
        split
        · split
          · rename_i inf _
            exact codeExt_trans (codeExt_of_eq rfl)
              (codeExt_trans (ihIn inf ca (advance st)) (ihIL prec ca _))
          · exact codeExt_of_eq (by simp)
        · exact codeExt_rfl st
      -- runPre
      · intro pf ca st
        cases pf
        · exact ihGr ca st
        · exact ihUn ca st
        · exact ihVar ca st
        · exact codeExt_numberRule st
        · exact codeExt_stringRule st
        · exact codeExt_literalRule st
      -- runIn
      · intro inf ca st
        cases inf
        · exact ihBin ca st
        · exact ihCall ca st
      -- expression
      · intro st
        simp only [expression]
        exact ihPP PREC_ASSIGNMENT st
      -- grouping
      · intro ca st
        simp only [grouping]
        exact codeExt_consume (ihExpr st) _ _
      -- unary
      · intro ca st
        simp only [unary]
        split <;> first
          | exact codeExt_emitByte (ihPP PREC_UNARY st) _
          | exact ihPP PREC_UNARY st
      -- binary
      · intro ca st
        simp only [binary]
        split <;> first
          | exact codeExt_emitByte (ihPP (getRulePrec (tokType st.prev) + 1) st) _
          | exact ihPP (getRulePrec (tokType st.prev) + 1) st
      -- call
      · intro ca st
        simp only [call]
        rcases h : argumentList f st with ⟨n, st1⟩
        have := ihArgs st
        rw [h] at this
        exact codeExt_emitBytes this _ _
      -- argumentList
      · intro st
        simp only [argumentList]
        split
        · rcases h : argLoop f 0 st with ⟨n, st1⟩
          have := ihArgLoop 0 st
          rw [h] at this
          exact codeExt_consume this _ _
        · exact codeExt_consume (codeExt_rfl st) _ _
      -- argLoop
      · intro n st
        simp only [argLoop]
        have hcont : ∀ st2 : CState, CodeExt st st2 →
            CodeExt st (if checkTok st2 TokType.comma = true
              then argLoop f (n + 1) (advance st2)
              else (n + 1, st2)).2 := by
          intro st2 hst2
          split
          · exact codeExt_trans (codeExt_trans hst2 (codeExt_of_eq rfl))
              (ihArgLoop (n + 1) (advance st2))
          · exact hst2
        apply hcont
        split
        · exact codeExt_trans (ihExpr st) (codeExt_of_eq (by simp))
        · exact ihExpr st
      -- variableRule
      · intro ca st
        simp only [variableRule]
        split
        · rename_i nm _
          exact ihNV nm ca st
        · exact codeExt_rfl st
      -- namedVariable
      · intro name ca st
        simp only [namedVariable]
        have hvo : CodeExt st ((resolveVarOps st name).st) := codeExt_of_eq (by simp)
        have hadv : CodeExt st (advance ((resolveVarOps st name).st)) :=
          codeExt_trans hvo (codeExt_of_eq rfl)
        split
        · exact codeExt_emitBytes (codeExt_trans hadv (ihExpr _)) _ _
        · split
          · exact codeExt_emitBytes (codeExt_emitByte
              (codeExt_emitBytes (codeExt_trans hadv (ihExpr _)) _ _) _) _ _
          · split
            · exact codeExt_emitBytes (codeExt_emitByte
                (codeExt_trans (codeExt_emitBytes hadv _ _) (ihExpr _)) _) _ _
            · split
              · exact codeExt_emitBytes (codeExt_emitByte
                  (codeExt_emitBytes (codeExt_trans hadv (ihExpr _)) _ _) _) _ _
              · split
                · exact codeExt_emitBytes (codeExt_emitByte
                    (codeExt_emitBytes (codeExt_trans hadv (ihExpr _)) _ _) _) _ _
                · exact codeExt_emitBytes hvo _ _

/-! # The verified properties -/

/-- C1 (amended): For every execution of the ADD instruction where both
operands are tables, the result is a fresh table built by applying the
right operand's entries first and then the left operand's entries
(tableAddAll(b) before tableAddAll(a)), so that for every key present
in both tables the LEFT operand's value wins in the result. -/
theorem C1_addTableMerge (h : Heap) (ia ib : Nat) (ea eb : List (Value × Value))
    (k : Value)
    (ha : h.tables.get? ia = some ea) (hb : h.tables.get? ib = some eb)
    (wa : TableWF ea) (wb : TableWF eb) :
    opAdd h (Value.tableRef ia) (Value.tableRef ib) =
      AddOutcome.ok (Value.tableRef h.tables.length)
        { h with tables := h.tables ++ [listAddAll ea (listAddAll eb [])] } ∧
    alistGet (listAddAll ea (listAddAll eb [])) k =
      firstSome (alistGet ea k) (alistGet eb k) := by
  constructor
  · have ha' : h.tables[ia]? = some ea := by simpa using ha
    have hb' : h.tables[ib]? = some eb := by simpa using hb
    simp [opAdd, ha', hb']
  · have h2 : alistGet (listAddAll eb []) k = alistGet eb k := by
      rw [alistGet_listAddAll eb k wb []]
      cases alistGet eb k <;> simp [firstSome, alistGet]
    rw [alistGet_listAddAll ea k wa, h2]

/-- C1 counterexample: merging the table binding "k" to 1 (left
operand) with the table binding "k" to 2 (right operand) yields a fresh
table (id 2) in which "k" maps to the left operand's value 1 — not the
right operand's value 2 that the claim predicts. -/
theorem C1_counterexample :
    opAdd mergeHeap (Value.tableRef 0) (Value.tableRef 1) =
      AddOutcome.ok (Value.tableRef 2)
        ⟨[[(Value.str "k", Value.num 1)], [(Value.str "k", Value.num 2)],
          [(Value.str "k", Value.num 1)]], []⟩ ∧
    tableGetH ⟨[[(Value.str "k", Value.num 1)], [(Value.str "k", Value.num 2)],
          [(Value.str "k", Value.num 1)]], []⟩ 2 (Value.str "k") =
      some (Value.num 1) ∧
    (some (Value.num 1) ≠ some (Value.num 2)) := by
  refine ⟨by decide, by decide, by decide⟩

/-- C1 witness: the merge theorem applied to the concrete heap holding
the table "a" ↦ 10 (left) and the table "a" ↦ 20, "b" ↦ 30 (right). -/
theorem C1_witness :
    TableWF [(Value.str "a", Value.num 10)] ∧
    TableWF [(Value.str "a", Value.num 20), (Value.str "b", Value.num 30)] ∧
    (opAdd ⟨[[(Value.str "a", Value.num 10)],
             [(Value.str "a", Value.num 20), (Value.str "b", Value.num 30)]], []⟩
        (Value.tableRef 0) (Value.tableRef 1) =
      AddOutcome.ok (Value.tableRef 2)
        ⟨[[(Value.str "a", Value.num 10)],
          [(Value.str "a", Value.num 20), (Value.str "b", Value.num 30)],
          listAddAll [(Value.str "a", Value.num 10)]
            (listAddAll [(Value.str "a", Value.num 20), (Value.str "b", Value.num 30)] [])], []⟩ ∧
    alistGet (listAddAll [(Value.str "a", Value.num 10)]
        (listAddAll [(Value.str "a", Value.num 20), (Value.str "b", Value.num 30)] []))
        (Value.str "a") =
      firstSome (alistGet [(Value.str "a", Value.num 10)] (Value.str "a"))
        (alistGet [(Value.str "a", Value.num 20), (Value.str "b", Value.num 30)] (Value.str "a"))) :=
  ⟨by decide, by decide,
   C1_addTableMerge _ 0 1 _ _ (Value.str "a") rfl rfl (by decide) (by decide)⟩

/-- C2 counterexample: compiling `x /= 2;` emits
CONSTANT 2; GET_GLOBAL x; DIVIDE; SET_GLOBAL x — the right-hand-side
expression BEFORE the get — and not the claimed
GET_GLOBAL x; CONSTANT 2; DIVIDE; SET_GLOBAL x sequence (so the left
operand of the emitted DIVIDE is 2, not the old value of x). -/
theorem C2_counterexample :
    (compileSt 100 slashEqToks).code =
      [OP_CONSTANT, 1, OP_GET_GLOBAL, 0, OP_DIVIDE, OP_SET_GLOBAL, 0,
       OP_POP, OP_NIL, OP_RETURN] ∧
    (compileSt 100 slashEqToks).code ≠
      [OP_GET_GLOBAL, 0, OP_CONSTANT, 1, OP_DIVIDE, OP_SET_GLOBAL, 0,
       OP_POP, OP_NIL, OP_RETURN] := by
  refine ⟨by decide, by decide⟩

/-- C2 (amended): for `a -= b` the compiler emits get a; expr b; SUB;
set a (the get before the right-hand side, so the emitted SUB's left
operand is the old value of a), but for `+=`, `*=` and `/=` it emits
expr b; get a; op; set a — the right-hand-side expression before the
get, so the left operand of the emitted ADD/MUL/DIV is b (in particular
`a /= b` divides b by the old value of a). -/
theorem C2_compoundAssignOrder (fuel : Nat) (st : CState) (name : String) (canArg : Bool) :
    (tokType (curTok st) = TokType.plusEq →
      ∃ t, (namedVariable (fuel + 1) name canArg st).code =
        st.code ++ t ++ [(resolveVarOps st name).getOp, (resolveVarOps st name).arg,
          OP_ADD, (resolveVarOps st name).setOp, (resolveVarOps st name).arg]) ∧
    (tokType (curTok st) = TokType.minusEq →
      ∃ t, (namedVariable (fuel + 1) name canArg st).code =
        st.code ++ [(resolveVarOps st name).getOp, (resolveVarOps st name).arg] ++ t
          ++ [OP_SUBTRACT, (resolveVarOps st name).setOp, (resolveVarOps st name).arg]) ∧
    (tokType (curTok st) = TokType.starEq →
      ∃ t, (namedVariable (fuel + 1) name canArg st).code =
        st.code ++ t ++ [(resolveVarOps st name).getOp, (resolveVarOps st name).arg,
          OP_MULTIPLY, (resolveVarOps st name).setOp, (resolveVarOps st name).arg]) ∧
    (tokType (curTok st) = TokType.slashEq →
      ∃ t, (namedVariable (fuel + 1) name canArg st).code =
        st.code ++ t ++ [(resolveVarOps st name).getOp, (resolveVarOps st name).arg,
          OP_DIVIDE, (resolveVarOps st name).setOp, (resolveVarOps st name).arg]) := by
  have hexpr := (codeExt_family fuel).2.2.2.2.1
  refine ⟨?_, ?_, ?_, ?_⟩
  all_goals intro hcur
  -- +=
  · have hne : checkTok (resolveVarOps st name).st TokType.eq = false := by
      rw [checkTok_resolveVarOps]; simp [checkTok, hcur]
    have hyes : checkTok (resolveVarOps st name).st TokType.plusEq = true := by
      rw [checkTok_resolveVarOps]; simp [checkTok, hcur]
    obtain ⟨t, ht⟩ := hexpr (advance ((resolveVarOps st name).st))
    refine ⟨t, ?_⟩
    simp [namedVariable, hne, hyes, ht, code_resolveVarOps]
  -- -=
  · have hne : checkTok (resolveVarOps st name).st TokType.eq = false := by
      rw [checkTok_resolveVarOps]; simp [checkTok, hcur]
    have hne1 : checkTok (resolveVarOps st name).st TokType.plusEq = false := by
      rw [checkTok_resolveVarOps]; simp [checkTok, hcur]
    have hyes : checkTok (resolveVarOps st name).st TokType.minusEq = true := by
      rw [checkTok_resolveVarOps]; simp [checkTok, hcur]
    obtain ⟨t, ht⟩ := hexpr (emitBytes (advance ((resolveVarOps st name).st))
      (resolveVarOps st name).getOp (resolveVarOps st name).arg)
    refine ⟨t, ?_⟩
    simp [namedVariable, hne, hne1, hyes, ht, code_resolveVarOps]
  -- *=
  · have hne : checkTok (resolveVarOps st name).st TokType.eq = false := by
      rw [checkTok_resolveVarOps]; simp [checkTok, hcur]
    have hne1 : checkTok (resolveVarOps st name).st TokType.plusEq = false := by
      rw [checkTok_resolveVarOps]; simp [checkTok, hcur]
    have hne2 : checkTok (resolveVarOps st name).st TokType.minusEq = false := by
      rw [checkTok_resolveVarOps]; simp [checkTok, hcur]
    have hyes : checkTok (resolveVarOps st name).st TokType.starEq = true := by
      rw [checkTok_resolveVarOps]; simp [checkTok, hcur]
    obtain ⟨t, ht⟩ := hexpr (advance ((resolveVarOps st name).st))
    refine ⟨t, ?_⟩
    simp [namedVariable, hne, hne1, hne2, hyes, ht, code_resolveVarOps]
  -- /=
  · have hne : checkTok (resolveVarOps st name).st TokType.eq = false := by
      rw [checkTok_resolveVarOps]; simp [checkTok, hcur]
    have hne1 : checkTok (resolveVarOps st name).st TokType.plusEq = false := by
      rw [checkTok_resolveVarOps]; simp [checkTok, hcur]
    have hne2 : checkTok (resolveVarOps st name).st TokType.minusEq = false := by
      rw [checkTok_resolveVarOps]; simp [checkTok, hcur]
    have hne3 : checkTok (resolveVarOps st name).st TokType.starEq = false := by
      rw [checkTok_resolveVarOps]; simp [checkTok, hcur]
    have hyes : checkTok (resolveVarOps st name).st TokType.slashEq = true := by
      rw [checkTok_resolveVarOps]; simp [checkTok, hcur]
    obtain ⟨t, ht⟩ := hexpr (advance ((resolveVarOps st name).st))
    refine ⟨t, ?_⟩
    simp [namedVariable, hne, hne1, hne2, hne3, hyes, ht, code_resolveVarOps]

/-- C2 witness: the order theorem applied to the parser state whose
current token is `+=` after the name `x` was consumed. -/
theorem C2_witness :
    tokType (curTok (initialCState [Token.plusEq, Token.number 1, Token.semicolon, Token.eofT])) =
      TokType.plusEq ∧
    (∃ t, (namedVariable 11 "x" true
        (initialCState [Token.plusEq, Token.number 1, Token.semicolon, Token.eofT])).code =
      (initialCState [Token.plusEq, Token.number 1, Token.semicolon, Token.eofT]).code ++ t ++
        [(resolveVarOps (initialCState [Token.plusEq, Token.number 1, Token.semicolon, Token.eofT]) "x").getOp,
         (resolveVarOps (initialCState [Token.plusEq, Token.number 1, Token.semicolon, Token.eofT]) "x").arg,
         OP_ADD,
         (resolveVarOps (initialCState [Token.plusEq, Token.number 1, Token.semicolon, Token.eofT]) "x").setOp,
         (resolveVarOps (initialCState [Token.plusEq, Token.number 1, Token.semicolon, Token.eofT]) "x").arg]) :=
  ⟨rfl, (C2_compoundAssignOrder 10
    (initialCState [Token.plusEq, Token.number 1, Token.semicolon, Token.eofT]) "x" true).1 rfl⟩

/-- C3: evaluation at the failing input `switch (1) { case 2: dump 1; }`.
The compiled switch pops the residual value inside the case prologue on
a match, but never on the no-match path: starting from the entry stack
[closure] (height 1), six steps execute the whole switch and leave
height 2 — the residual `1` is still on the stack — and the final state
of the run still holds one value where a balanced program leaves zero
(the terminal RETURN's closure pop removed the residual instead). -/
theorem C3_switchResidualLeak :
    compileFn 100 switchMissToks = some switchMissChunk ∧
    stackOf (runVM 6 (initState switchMissChunk)) =
      some [Value.num 1, Value.closureRef 0] ∧
    stackOf (runVM 30 (initState switchMissChunk)) =
      some [Value.closureRef 0] := by
  refine ⟨by decide, by decide, by decide⟩

/-- C4 (amended): a plain `=` is consumed as an assignment by
namedVariable only when assignment is permitted — with canAssign false
the `=` is left unconsumed (so an enclosing parsePrecedence level that
permits assignment reports "Invalid assignment target.", as the
compilation of `1 + x = 2;` shows) — but the sugared `+=` (and the
other compound assignments) are consumed and compiled regardless of
canAssign, so `1 + x += 2;` compiles without any error. -/
theorem C4_assignTargetGate (fuel : Nat) (st : CState) (name : String) :
    (tokType (curTok st) = TokType.eq →
      namedVariable (fuel + 1) name false st =
        emitBytes ((resolveVarOps st name).st) (resolveVarOps st name).getOp
          (resolveVarOps st name).arg ∧
      (namedVariable (fuel + 1) name false st).toks = st.toks) ∧
    (tokType (curTok st) = TokType.eq →
      namedVariable (fuel + 1) name true st =
        emitBytes (expression fuel (advance ((resolveVarOps st name).st)))
          (resolveVarOps st name).setOp (resolveVarOps st name).arg) ∧
    (tokType (curTok st) = TokType.plusEq → ∀ b1 b2 : Bool,
      namedVariable (fuel + 1) name b1 st = namedVariable (fuel + 1) name b2 st) ∧
    (compileSt 100 plainAssignToks).hadError = true ∧
    (compileSt 100 plainAssignToks).errors = ["Invalid assignment target."] ∧
    (compileSt 100 sugarAssignToks).hadError = false ∧
    (compileSt 100 sugarAssignToks).errors = [] := by
  refine ⟨?_, ?_, ?_, by decide, by decide, by decide, by decide⟩
  · intro hcur
    have h1 : checkTok (resolveVarOps st name).st TokType.plusEq = false := by
      rw [checkTok_resolveVarOps]; simp [checkTok, hcur]
    have h2 : checkTok (resolveVarOps st name).st TokType.minusEq = false := by
      rw [checkTok_resolveVarOps]; simp [checkTok, hcur]
    have h3 : checkTok (resolveVarOps st name).st TokType.starEq = false := by
      rw [checkTok_resolveVarOps]; simp [checkTok, hcur]
    have h4 : checkTok (resolveVarOps st name).st TokType.slashEq = false := by
      rw [checkTok_resolveVarOps]; simp [checkTok, hcur]
    constructor
    · simp [namedVariable, h1, h2, h3, h4]
    · simp [namedVariable, h1, h2, h3, h4, toks_resolveVarOps]
  · intro hcur
    have h0 : checkTok (resolveVarOps st name).st TokType.eq = true := by
      rw [checkTok_resolveVarOps]; simp [checkTok, hcur]
    simp [namedVariable, h0]
  · intro hcur b1 b2
    have hne : checkTok (resolveVarOps st name).st TokType.eq = false := by
      rw [checkTok_resolveVarOps]; simp [checkTok, hcur]
    have hyes : checkTok (resolveVarOps st name).st TokType.plusEq = true := by
      rw [checkTok_resolveVarOps]; simp [checkTok, hcur]
    simp [namedVariable, hne, hyes]

/-- C4 counterexample: the program `1 + x += 2;` contains a sugared
assignment in a position parsed with precedence FACTOR > ASSIGNMENT,
yet it compiles with no error at all — in particular without the
"Invalid assignment target." diagnostic the claim requires. -/
theorem C4_counterexample :
    (compileSt 100 sugarAssignToks).hadError = false ∧
    ("Invalid assignment target." ∈ (compileSt 100 sugarAssignToks).errors → False) := by
  refine ⟨by decide, by decide⟩

/-- C4 witness: the gate theorem applied to parser states whose current
token is `=` and `+=` respectively. -/
theorem C4_witness :
    tokType (curTok (initialCState [Token.eq, Token.number 1, Token.semicolon, Token.eofT])) =
      TokType.eq ∧
    (namedVariable 11 "x" false
        (initialCState [Token.eq, Token.number 1, Token.semicolon, Token.eofT])).toks =
      (initialCState [Token.eq, Token.number 1, Token.semicolon, Token.eofT]).toks ∧
    namedVariable 11 "x" true
        (initialCState [Token.plusEq, Token.number 2, Token.semicolon, Token.eofT]) =
      namedVariable 11 "x" false
        (initialCState [Token.plusEq, Token.number 2, Token.semicolon, Token.eofT]) :=
  ⟨rfl,
   ((C4_assignTargetGate 10
      (initialCState [Token.eq, Token.number 1, Token.semicolon, Token.eofT]) "x").1 rfl).2,
   ((C4_assignTargetGate 10
      (initialCState [Token.plusEq, Token.number 2, Token.semicolon, Token.eofT]) "x").2.2.1 rfl true false)⟩

/-- C5: evaluation at the failing input `while (false) {} break;`. The
compiler's isInLoop flag is set by the while statement and never
cleared, so the break after the loop is accepted: no error is reported
(in particular not "Break must in a loop."), the flag is still true at
end of compilation, and the break's forward jump is threaded onto the
break list but never patched — its operand bytes remain 0xff 0xff. -/
theorem C5_breakAfterLoopAccepted :
    (compileSt 100 breakAfterLoopToks).hadError = false ∧
    (compileSt 100 breakAfterLoopToks).errors = [] ∧
    (compileSt 100 breakAfterLoopToks).isInLoop = true ∧
    (compileSt 100 breakAfterLoopToks).breakNodes = [10] ∧
    (compileSt 100 breakAfterLoopToks).code =
      [OP_FALSE, OP_JUMP_IF_FALSE, 0, 4, OP_POP, OP_LOOP, 0, 8, OP_POP,
       OP_JUMP, 255, 255, OP_NIL, OP_RETURN] := by
  refine ⟨by decide, by decide, by decide, by decide, by decide⟩

/-- C6 (amended): executing RETURN pops the result, closes every open
upvalue at or above the returning frame's slot base, and removes the
frame; when frames remain the stack is truncated to the old frame's
slot base and the result pushed, so the stack top equals the old
frame.slots + 1 — while the terminal RETURN (no frames remain) instead
pops the result and one further value (the script closure) and
terminates. -/
theorem C6_returnStack (st : VMSt) (f : Frame) (fs : List Frame) (ch : Chunk)
    (res : Value) (rest : List Value)
    (hf : st.frames = f :: fs) (hch : st.chunks.get? f.fn = some ch)
    (hop : ch.code.get? f.ip = some OP_RETURN)
    (hstack : st.stack = res :: rest) (hslots : f.slots ≤ rest.length) :
    (fs ≠ [] →
      step st = StepOut.ok { st with
        stack := res :: rest.drop (rest.length - f.slots),
        frames := fs,
        openUpvalues := closeUpvalues st.openUpvalues f.slots } ∧
      (res :: rest.drop (rest.length - f.slots)).length = f.slots + 1) ∧
    (fs = [] → ∀ (c : Value) (rest2 : List Value), rest = c :: rest2 →
      step st = StepOut.done { st with
        stack := rest2,
        frames := ([] : List Frame),
        openUpvalues := closeUpvalues st.openUpvalues f.slots }) := by
  constructor
  · intro hfs
    have hemp : fs.isEmpty = false := by
      cases fs with
      | nil => exact absurd rfl hfs
      | cons a b => rfl
    constructor
    · have hch' : st.chunks[f.fn]? = some ch := by simpa using hch
      have hop' : ch.code[f.ip]? = some OP_RETURN := by simpa using hop
      simp [step, hf, hch', hop', hstack, hemp,
        OP_CONSTANT, OP_NIL, OP_TRUE, OP_FALSE, OP_POP, OP_DUP, OP_EQUAL,
        OP_ADD, OP_NOT, OP_JUMP, OP_JUMP_IF_FALSE, OP_LOOP, OP_DUMP, OP_RETURN]
    · simp only [List.length_cons, List.length_drop]
      omega
  · intro hfs c rest2 hrest
    subst hfs
    subst hrest
    have hch' : st.chunks[f.fn]? = some ch := by simpa using hch
    have hop' : ch.code[f.ip]? = some OP_RETURN := by simpa using hop
    simp [step, hf, hch', hop', hstack,
      OP_CONSTANT, OP_NIL, OP_TRUE, OP_FALSE, OP_POP, OP_DUP, OP_EQUAL,
      OP_ADD, OP_NOT, OP_JUMP, OP_JUMP_IF_FALSE, OP_LOOP, OP_DUMP, OP_RETURN,
      List.isEmpty_nil]

/-- C6 counterexample: the terminal RETURN of the script `NIL; RETURN`
(frame slot base 0) pops the result and the script closure and
terminates with stack height 0, not the claimed frame.slots + 1 = 1. -/
theorem C6_counterexample :
    (stackOf (runVM 5 termSt)).map List.length = some 0 ∧ (0 : Nat) ≠ 0 + 1 := by
  refine ⟨by decide, by decide⟩

/-- C6 witness: the RETURN theorem applied to a concrete two-frame
state whose inner frame has slot base 1. -/
theorem C6_witness :
    ([(⟨0, 0, 0⟩ : Frame)] ≠ ([] : List Frame)) ∧
    (step twoFrameSt = StepOut.ok { twoFrameSt with
        stack := [Value.num 7, Value.closureRef 0],
        frames := [⟨0, 0, 0⟩],
        openUpvalues := [(1, 0)] } ∧
      ([Value.num 7, Value.closureRef 0] : List Value).length = 1 + 1) :=
  ⟨by decide,
   (C6_returnStack twoFrameSt ⟨1, 0, 1⟩ [⟨0, 0, 0⟩] ⟨[OP_RETURN], []⟩
      (Value.num 7) [Value.closureRef 1, Value.closureRef 0]
      rfl rfl rfl rfl (by decide)).1 (by decide)⟩

/-- C7: every open-upvalue list reachable through captureUpvalue and
closeUpvalues from the VM's initial empty list is ordered strictly by
descending stack-slot location; consequently at most one open upvalue
exists per slot, and captureUpvalue returns the existing upvalue
(sharing it, leaving the list unchanged) whenever one for the requested
slot is already open. -/
theorem C7_openUpvalueInvariant (l : List (Nat × Nat)) (n : Nat)
    (h : ReachableUV l n) :
    UVOrdered l ∧
    List.Pairwise (fun a b : Nat × Nat => a.2 ≠ b.2) l ∧
    (∀ id x, (id, x) ∈ l → captureUpvalue n l x = (id, l, n)) := by
  have hord : UVOrdered l := by
    induction h with
    | init => exact List.Pairwise.nil
    | capture l' n' x' hr ih => exact capture_ordered n' x' ih
    | close l' n' last hr ih => exact close_ordered last ih
  refine ⟨hord, ?_, ?_⟩
  · exact hord.imp (fun hab => by omega)
  · intro id x hm
    exact capture_mem n hord hm

/-- C7 witness: invariants at the reachable list holding one open
upvalue for slot 5, and the sharing property for a repeated capture of
slot 5. -/
theorem C7_witness :
    ReachableUV [(0, 5)] 1 ∧
    UVOrdered [(0, 5)] ∧
    captureUpvalue 1 [(0, 5)] 5 = (0, [(0, 5)], 1) :=
  have hr : ReachableUV [(0, 5)] 1 := ReachableUV.capture [] 0 5 ReachableUV.init
  ⟨hr, (C7_openUpvalueInvariant _ _ hr).1,
   (C7_openUpvalueInvariant _ _ hr).2.2 0 5 (by simp)⟩

/-- C8: every ADD whose operands are not one of string⊕string,
number⊕number, table⊕table, array⊕array, instance⊕instance raises the
runtime error "Operands must be two joinable types." — a message
containing "must be two joinable types" — and the compiled program
`dump "x" + 1;` runs to RUNTIME_ERROR with exactly that message. -/
theorem C8_addTypeError :
    (∀ (h : Heap) (a b : Value), joinable a b = false →
      opAdd h a b = AddOutcome.err "Operands must be two joinable types.") ∧
    containsChars "Operands must be two joinable types.".toList
      "must be two joinable types".toList = true ∧
    compileFn 100 dumpAddToks = some dumpAddChunk ∧
    runVM 30 (initState dumpAddChunk) =
      RunOut.runtimeError "Operands must be two joinable types." := by
  refine ⟨?_, by decide, by decide, by decide⟩
  intro h a b hj
  cases a <;> cases b <;> simp_all [joinable, opAdd]

/-- C8 witness: the error branch applied to string ⊕ number, the
operands of `dump "x" + 1;`. -/
theorem C8_witness :
    joinable (Value.str "x") (Value.num 1) = false ∧
    opAdd emptyHeap (Value.str "x") (Value.num 1) =
      AddOutcome.err "Operands must be two joinable types." :=
  ⟨by decide, C8_addTypeError.1 emptyHeap (Value.str "x") (Value.num 1) (by decide)⟩

/-- C9: OP_NOT inspects the stack slot below its operand: when the top
two values are both instances it performs a binary __not dunder
dispatch whose receiver is the value beneath the operand (a runtime
error when the two instances have different classes), and only when the
operand or the value beneath it is not an instance does it pop exactly
one value and push the negation of its truthiness. -/
theorem C9_notDunder (v0 v1 : Value) (rest : List Value) :
    (∀ k0 i0 k1 i1, v0 = Value.inst k0 i0 → v1 = Value.inst k1 i1 →
      (k1 ≠ k0 → opNot (v0 :: v1 :: rest) =
        NotOutcome.err "Operands must be two instances of the same class.") ∧
      (k1 = k0 → opNot (v0 :: v1 :: rest) =
        NotOutcome.dunder ⟨"__not", v1, v0⟩)) ∧
    (isInstanceV v0 = false ∨ isInstanceV v1 = false →
      opNot (v0 :: v1 :: rest) =
        NotOutcome.plain (Value.bool (isFalsey v0) :: v1 :: rest)) := by
  constructor
  · intro k0 i0 k1 i1 h0 h1
    subst h0; subst h1
    constructor
    · intro hne
      simp [opNot, hne]
    · intro heq
      subst heq
      simp [opNot]
  · intro hni
    cases v0 <;> cases v1 <;> simp_all [opNot, isInstanceV]

/-- C9 witness: the three behaviours at concrete stacks — different
classes error, same class dispatches __not to the value beneath the
operand, and a non-instance operand is simply negated. -/
theorem C9_witness :
    ((1 : Nat) ≠ 0 ∧
      opNot [Value.inst 0 0, Value.inst 1 1] =
        NotOutcome.err "Operands must be two instances of the same class.") ∧
    opNot [Value.inst 0 5, Value.inst 0 7] =
      NotOutcome.dunder ⟨"__not", Value.inst 0 7, Value.inst 0 5⟩ ∧
    opNot [Value.num 3, Value.closureRef 0] =
      NotOutcome.plain [Value.bool false, Value.closureRef 0] :=
  ⟨⟨by decide, ((C9_notDunder (Value.inst 0 0) (Value.inst 1 1) []).1 0 0 1 1 rfl rfl).1 (by decide)⟩,
   ((C9_notDunder (Value.inst 0 5) (Value.inst 0 7) []).1 0 5 0 7 rfl rfl).2 rfl,
   (C9_notDunder (Value.num 3) (Value.closureRef 0) []).2 (Or.inl (by decide))⟩

/-- C10: for every non-script function kind, initCompiler stores the
just-parsed name into the enclosing compiler's current function object,
while the function object created for the new compiler itself has no
name (newFunction allocates it nameless). -/
theorem C10_initCompilerName (chain : List CompilerRec) (encl : CompilerRec)
    (rest : List CompilerRec) (ftype : FunctionType) (nm : String)
    (hty : ftype ≠ FunctionType.typeScript) (hch : chain = encl :: rest) :
    initCompilerM chain ftype nm =
      some ({ function := newFunction, ftype := ftype,
              locals := [if ftype != FunctionType.typeFunction
                         then ⟨"this", 0, false⟩ else ⟨"", 0, false⟩],
              scopeDepth := 0, isInLoop := false, breakNodes := [], loopStart := 0 } ::
            { encl with function := { encl.function with name := some nm } } :: rest) ∧
    newFunction.name = none := by
  subst hch
  refine ⟨?_, rfl⟩
  have hb : (ftype != FunctionType.typeScript) = true := bne_iff_ne.mpr hty
  simp [initCompilerM, hb]

/-- C10 witness: opening a compiler for the function declaration
`fun inner ...` beneath the script compiler renames the script
function to "inner" and gives the nested function itself no name. -/
theorem C10_witness :
    (FunctionType.typeFunction ≠ FunctionType.typeScript) ∧
    (initCompilerM
        [{ function := ⟨none, 0, 0⟩, ftype := FunctionType.typeScript,
           locals := [⟨"", 0, false⟩], scopeDepth := 0, isInLoop := false,
           breakNodes := [], loopStart := 0 }]
        FunctionType.typeFunction "inner" =
      some ({ function := newFunction, ftype := FunctionType.typeFunction,
              locals := [if FunctionType.typeFunction != FunctionType.typeFunction
                         then ⟨"this", 0, false⟩ else ⟨"", 0, false⟩],
              scopeDepth := 0, isInLoop := false, breakNodes := [], loopStart := 0 } ::
            { function := ⟨some "inner", 0, 0⟩, ftype := FunctionType.typeScript,
              locals := [⟨"", 0, false⟩], scopeDepth := 0, isInLoop := false,
              breakNodes := [], loopStart := 0 } :: []) ∧
      newFunction.name = none) :=
  ⟨by decide,
   C10_initCompilerName _
     { function := ⟨none, 0, 0⟩, ftype := FunctionType.typeScript,
       locals := [⟨"", 0, false⟩], scopeDepth := 0, isInLoop := false,
       breakNodes := [], loopStart := 0 }
     [] FunctionType.typeFunction "inner" (by decide) rfl⟩

end Lux
